import Mathlib

/-!
Verification development for the PoNet pretraining-data transform
(`group_texts` and `truncate_seq_pair` in `run_pretrained.py`).

The Python code is embedded shallowly:
* token ids are `ℕ`, per-token segment (origin) ids are `ℤ` (Python ints);
* the global pseudo-random generator is modelled as an explicit oracle
  stream `RNG`: each call to `random.random()` consumes the next rational
  from `floats`, each call to `random.randint(lo, hi)` consumes the next
  natural `k` from `ints` and yields `lo + k % (hi + 1 - lo)`;
* the `while` loops over the segment index are written as structural
  recursions; the pair-building loop additionally carries explicit fuel
  because its `continue` statement (line 499 of the source) re-visits the
  same index without advancing, so the remaining segment list alone does
  not decrease.
-/

namespace PoNet

/-- Oracle model of Python's global `random` generator: a finite stream of
pre-drawn values, one list for `random.random()` outcomes and one for the
raw draws behind `random.randint`. -/
structure RNG where
  floats : List ℚ
  ints : List ℕ
deriving DecidableEq


/-- The probability constants of the transform, stored in reduced
`num/den` form so that comparisons against them evaluate by kernel
reduction (a `1/3` built by division would normalize through `Nat.gcd`,
which does not reduce definitionally). -/
def oneThird : ℚ := ⟨1, 3, by omega, by norm_num⟩

/-- The constant `2/3` in reduced form. -/
def twoThirds : ℚ := ⟨2, 3, by omega, by norm_num⟩

/-- The constant `1/2` in reduced form. -/
def oneHalf : ℚ := ⟨1, 2, by omega, by norm_num⟩

/-- The constant `short_seq_prob = 0.1` (source line 424), in reduced form. -/
def short_seq_prob : ℚ := ⟨1, 10, by omega, by norm_num⟩

theorem oneThird_eq : oneThird = 1/3 := by
  rw [oneThird, Rat.mk'_eq_divInt]; norm_num [Rat.divInt_eq_div]

theorem twoThirds_eq : twoThirds = 2/3 := by
  rw [twoThirds, Rat.mk'_eq_divInt]; norm_num [Rat.divInt_eq_div]

theorem oneHalf_eq : oneHalf = 1/2 := by
  rw [oneHalf, Rat.mk'_eq_divInt]; norm_num [Rat.divInt_eq_div]

theorem short_seq_prob_eq : short_seq_prob = 1/10 := by
  rw [short_seq_prob, Rat.mk'_eq_divInt]; norm_num [Rat.divInt_eq_div]

/-- Reduced-form rationals standing for concrete oracle draws. -/
def nineTenths : ℚ := ⟨9, 10, by omega, by norm_num⟩

/-- The draw `1/20`. -/
def oneTwentieth : ℚ := ⟨1, 20, by omega, by norm_num⟩

/-- The draw `1/4`. -/
def oneQuarter : ℚ := ⟨1, 4, by omega, by norm_num⟩

theorem nineTenths_eq : nineTenths = 9/10 := by
  rw [nineTenths, Rat.mk'_eq_divInt]; norm_num [Rat.divInt_eq_div]

theorem oneTwentieth_eq : oneTwentieth = 1/20 := by
  rw [oneTwentieth, Rat.mk'_eq_divInt]; norm_num [Rat.divInt_eq_div]

theorem oneQuarter_eq : oneQuarter = 1/4 := by
  rw [oneQuarter, Rat.mk'_eq_divInt]; norm_num [Rat.divInt_eq_div]

/-- Model of `random.random()`: pop the next float draw (0 once the oracle is exhausted). -/
def nextFloat (g : RNG) : ℚ × RNG :=
  match g.floats with
  | [] => (0, g)
  | q :: qs => (q, ⟨qs, g.ints⟩)

/-- Pop the next raw integer draw (0 once the oracle is exhausted). -/
def nextInt (g : RNG) : ℕ × RNG :=
  match g.ints with
  | [] => (0, g)
  | k :: ks => (k, ⟨g.floats, ks⟩)

/-- Model of `random.randint(lo, hi)`: the next raw draw reduced into `[lo, hi]`. -/
def nextRandint (lo hi : ℕ) (g : RNG) : ℕ × RNG :=
  let (k, g') := nextInt g
  (lo + k % (hi + 1 - lo), g')

/-- The retry loop of the RANDOM branch (source lines 508-511):
`while True: rid = random.randint(0, n-1); if rid != chunk_id: break`,
consuming raw draws until one differs from `chunkId` (0 if the oracle
runs dry, which the theorems below never exercise). -/
def pickRidAux (chunkId : ℤ) (n : ℕ) : List ℕ → ℕ × List ℕ
  | [] => (0, [])
  | k :: ks =>
    let rid := k % n
    if (rid : ℤ) = chunkId then pickRidAux chunkId n ks else (rid, ks)

/-- The retry loop `pickRidAux` threaded through the `RNG` state. -/
def pickRid (chunkId : ℤ) (n : ℕ) (g : RNG) : ℕ × RNG :=
  let (rid, ks) := pickRidAux chunkId n g.ints
  (rid, ⟨g.floats, ks⟩)

/-- The `get_all_chunk` loop of `group_texts` (source lines 439-457):
walks the segments with a running chunk `cur` and running token length
`curlen`; empty segments are skipped, a chunk is flushed when the current
segment is the last one (`rest = []`) or the running length reaches the
target.  Note that when the loop ends the running buffer is dropped, not
flushed. -/
def get_all_chunk_loop (target : ℕ) :
    List (List ℕ) → List (List ℕ) → ℕ → List (List (List ℕ))
  | [], _, _ => []
  | seg :: rest, cur, curlen =>
    if seg = [] then
      get_all_chunk_loop target rest cur curlen
    else
      if rest = [] ∨ target ≤ curlen + seg.length then
        (if cur ++ [seg] = [] then [] else [cur ++ [seg]])
          ++ get_all_chunk_loop target rest [] 0
      else
        get_all_chunk_loop target rest (cur ++ [seg]) (curlen + seg.length)

/-- First pass of `group_texts`: collect `total_chunk` (source lines 439-457). -/
def get_all_chunk (examples : List (List ℕ)) (target : ℕ) : List (List (List ℕ)) :=
  get_all_chunk_loop target examples [] 0

/-- Per-token origin ids for a run of segments whose first segment has
index `off` in the chunk: `[off]*len(chunk[off]) ++ [off+1]*... ` (the
comprehensions at source lines 487-496 and 514). -/
def segIdsOf (off : ℕ) (chunks : List (List ℕ)) : List ℤ :=
  ((List.enumFrom off chunks).map (fun p => List.replicate p.2.length (p.1 : ℤ))).flatten

/-- Relation sampling (source lines 501-516).  Draws `rdn`; `rdn < 1/3`
swaps the halves with label 1; `1/3 ≤ rdn < 2/3` with more than one chunk
in `total_chunk` replaces B by a randomly picked other chunk with label 2;
otherwise label 0 leaves the pair as split. -/
def relationSample (totalChunk : List (List (List ℕ))) (chunkId : ℤ)
    (tokensA tokensB : List ℕ) (aIds bIds : List ℤ) (g : RNG) :
    ℕ × List ℕ × List ℕ × List ℤ × List ℤ × RNG :=
  let (rdn, g1) := nextFloat g
  if rdn < oneThird then
    (1, tokensB, tokensA, bIds, aIds, g1)
  else if rdn < twoThirds ∧ 1 < totalChunk.length then
    let (rid, g2) := pickRid chunkId totalChunk.length g1
    let anotherChunk := totalChunk.getD rid []
    (2, tokensA, anotherChunk.flatten, aIds, segIdsOf 0 anotherChunk, g2)
  else
    (0, tokensA, tokensB, aIds, bIds, g1)

/-- The `while True` loop of `truncate_seq_pair` (source lines 518-534),
written with explicit fuel: exit when the combined length fits, otherwise
trim the longer token list (ties to B, per the strict `>` comparison at
line 524) and, by its own length comparison, the longer origin-id list;
a draw below 1/2 removes the first element, otherwise the last. -/
def truncateFuel : ℕ → ℕ → List ℕ → List ℕ → List ℤ → List ℤ → RNG →
    Option (List ℕ × List ℕ × List ℤ × List ℤ × RNG)
  | 0, _, _, _, _, _, _ => none
  | fuel + 1, maxNumTokens, ta, tb, ai, bi, g =>
    if ta.length + tb.length ≤ maxNumTokens then
      some (ta, tb, ai, bi, g)
    else
      let (q, g1) := nextFloat g
      let pickTokensA := tb.length < ta.length
      let pickIdsA := bi.length < ai.length
      let ta' := if pickTokensA then (if q < oneHalf then ta.tail else ta.dropLast) else ta
      let tb' := if pickTokensA then tb else (if q < oneHalf then tb.tail else tb.dropLast)
      let ai' := if pickIdsA then (if q < oneHalf then ai.tail else ai.dropLast) else ai
      let bi' := if pickIdsA then bi else (if q < oneHalf then bi.tail else bi.dropLast)
      truncateFuel fuel maxNumTokens ta' tb' ai' bi' g1

/-- The function `truncate_seq_pair` (source lines 518-536): each loop iteration removes
one token, so `len(A) + len(B) + 1` rounds of fuel always suffice (proved
below); the fallback value is therefore never used. -/
def truncate_seq_pair (maxNumTokens : ℕ) (ta tb : List ℕ) (ai bi : List ℤ) (g : RNG) :
    List ℕ × List ℕ × List ℤ × List ℤ × RNG :=
  (truncateFuel (ta.length + tb.length + 1) maxNumTokens ta tb ai bi g).getD
    (ta, tb, ai, bi, g)

/-- Modelled from the spec: the external tokenizer capability
`tokenizer.build_inputs_with_special_tokens(tokens_a, tokens_b)` assembles
`[START] A [SEP] B [SEP]` (§4.6 step 1); the BERT ids 101/102 stand for the
start and separator tokens. -/
def build_inputs_with_special_tokens (ta tb : List ℕ) : List ℕ :=
  101 :: (ta ++ 102 :: (tb ++ [102]))

/-- Modelled from the spec: the external tokenizer capability
`tokenizer.create_token_type_ids_from_sequences(tokens_a, tokens_b)`
emits 0 over A with its leading and mid boundary and 1 over B with its
trailing boundary (§4.6 step 2). -/
def create_token_type_ids_from_sequences (ta tb : List ℕ) : List ℕ :=
  List.replicate (ta.length + 2) 0 ++ List.replicate (tb.length + 1) 1

/-- The special-token mask of an instance (source line 549):
`[1] + [0]*len(tokens_a) + [1] + [0]*len(tokens_b) + [1]`. -/
def specialTokensMask (ta tb : List ℕ) : List ℕ :=
  1 :: (List.replicate ta.length 0 ++ 1 :: (List.replicate tb.length 0 ++ [1]))

/-- Renumbering of A's origin ids (source line 551):
`a_segment_ids = [asi - a_segment_ids[0] + 1 for asi in a_segment_ids]`. -/
def renumberA (a : List ℤ) : List ℤ :=
  a.map (fun asi => asi - a.headI + 1)

/-- Renumbering of B's origin ids (source line 552), after A has been
renumbered: `[bsi - b_segment_ids[0] + a_segment_ids[-1] + 2 for bsi ...]`. -/
def renumberB (a' b : List ℤ) : List ℤ :=
  b.map (fun bsi => bsi - b.headI + a'.getLastD 0 + 2)

/-- The emitted segment-id sequence (source lines 551-553):
`[0] + a' + [a'[-1]+1] + b' + [b'[-1]+1]`. -/
def assembleSegmentIds (a b : List ℤ) : List ℤ :=
  let a' := renumberA a
  let b' := renumberB a' b
  0 :: (a' ++ (a'.getLastD 0 + 1) :: (b' ++ [b'.getLastD 0 + 1]))

/-- The output record of `group_texts`: the six parallel lists appended to
at source lines 545-553. -/
structure Results where
  input_ids : List (List ℕ)
  token_type_ids : List (List ℕ)
  attention_mask : List (List ℕ)
  special_tokens_mask : List (List ℕ)
  next_sentence_label : List ℕ
  segment_ids : List (List ℤ)
deriving DecidableEq

/-- The empty output record (source lines 418-420). -/
def emptyResults : Results := ⟨[], [], [], [], [], []⟩

/-- Emission of one training instance (source lines 538-553). -/
def pushInstance (acc : Results) (ta tb : List ℕ) (ai bi : List ℤ) (isNext : ℕ) :
    Results where
  input_ids := acc.input_ids ++ [build_inputs_with_special_tokens ta tb]
  token_type_ids := acc.token_type_ids ++ [create_token_type_ids_from_sequences ta tb]
  attention_mask :=
    acc.attention_mask ++ [List.replicate (build_inputs_with_special_tokens ta tb).length 1]
  special_tokens_mask := acc.special_tokens_mask ++ [specialTokensMask ta tb]
  next_sentence_label := acc.next_sentence_label ++ [isNext]
  segment_ids := acc.segment_ids ++ [assembleSegmentIds ai bi]

/-- The pair-building loop of `group_texts` (source lines 464-556): the
second walk over the segments, which splits each flushed chunk, samples
the relation, truncates and emits.  When the split yields an empty half
the source executes `continue` (line 499), which neither resets the
running buffer nor advances the index; the recursion mirrors that by
revisiting `seg :: rest` with the grown buffer, and carries fuel because
of it. -/
def pairLoop (totalChunk : List (List (List ℕ))) (maxNumTokens target : ℕ) :
    ℕ → List (List ℕ) → List (List ℕ) → ℕ → ℤ → RNG → Results → Results × RNG
  | 0, _, _, _, _, g, acc => (acc, g)
  | _ + 1, [], _, _, _, g, acc => (acc, g)
  | fuel + 1, seg :: rest, cur, curlen, chunkId, g, acc =>
    if seg = [] then
      pairLoop totalChunk maxNumTokens target fuel rest cur curlen chunkId g acc
    else
      let cur' := cur ++ [seg]
      let curlen' := curlen + seg.length
      if rest = [] ∨ target ≤ curlen' then
        if cur' = [] then
          pairLoop totalChunk maxNumTokens target fuel rest [] 0 chunkId g acc
        else
          let chunkId' := chunkId + 1
          let (aEnd, g1) :=
            if 2 ≤ cur'.length then nextRandint 1 (cur'.length - 1) g else (1, g)
          let tokensA := (cur'.take aEnd).flatten
          let aIds := segIdsOf 0 (cur'.take aEnd)
          let tokensB := (cur'.drop aEnd).flatten
          let bIds := segIdsOf aEnd (cur'.drop aEnd)
          if tokensA = [] ∨ tokensB = [] then
            pairLoop totalChunk maxNumTokens target fuel (seg :: rest) cur' curlen'
              chunkId' g1 acc
          else
            let (isNext, ta, tb, ai, bi, g2) :=
              relationSample totalChunk chunkId' tokensA tokensB aIds bIds g1
            let (ta2, tb2, ai2, bi2, g3) := truncate_seq_pair maxNumTokens ta tb ai bi g2
            pairLoop totalChunk maxNumTokens target fuel rest [] 0 chunkId' g3
              (pushInstance acc ta2 tb2 ai2 bi2 isNext)
      else
        pairLoop totalChunk maxNumTokens target fuel rest cur' curlen' chunkId g acc

/-- The `dupe_factor` repetitions of `group_texts` (source lines 421-436):
each pass samples the target length (`short_seq_prob = 0.1`), collects
`total_chunk` and runs the pair-building loop.  `2 * examples.length + 1`
fuel bounds the pair loop: each index is visited at most twice (once more
after a `continue`). -/
def dupeLoop (examples : List (List ℕ)) (maxNumTokens : ℕ) :
    ℕ → RNG → Results → Results × RNG
  | 0, g, acc => (acc, g)
  | d + 1, g, acc =>
    let (q, g1) := nextFloat g
    let (target, g2) :=
      if q < short_seq_prob then nextRandint 2 maxNumTokens g1 else (maxNumTokens, g1)
    let totalChunk := get_all_chunk examples target
    let (acc', g3) :=
      pairLoop totalChunk maxNumTokens target (2 * examples.length + 1) examples
        [] 0 (-1) g2 acc
    dupeLoop examples maxNumTokens d g3 acc'

/-- The `group_texts` transform (source lines 416-557), as a pure function
of the input segments, the parameters and the random oracle.
`maxNumTokens` stands for `max_seq_length - tokenizer.num_special_tokens_to_add(pair=True)`. -/
def group_texts (examples : List (List ℕ)) (dupeFactor maxNumTokens : ℕ) (g : RNG) :
    Results × RNG :=
  dupeLoop examples maxNumTokens dupeFactor g emptyResults

/-- C1: on the batch `[[1,2]]` the only chunk consists of exactly one
segment, so the split yields an empty B and the claim says the chunk
produces no instance, with the running buffer and length reset.  Instead
the `continue` at source line 499 skips both the reset (lines 554-555)
and the index increment (line 556): the same segment is appended a second
time and an instance whose A and B are duplicated copies of `[1,2]` is
emitted (`input_ids = [CLS] 1 2 [SEP] 1 2 [SEP]`), refuting the claim.
Draws: float 1/2 (no short-sequence target), float 9/10 (relation draw,
label `SAME_ORDER`), raw int 0 (`a_end = randint(1,1) = 1`). -/
theorem c1_single_segment_chunk_emits_duplicated_instance :
    (group_texts [[1, 2]] 1 10 ⟨[oneHalf, nineTenths], [0]⟩).1.input_ids
        = [[101, 1, 2, 102, 1, 2, 102]] ∧
    (group_texts [[1, 2]] 1 10 ⟨[oneHalf, nineTenths], [0]⟩).1.next_sentence_label = [0] := by
  decide

/-- C5: on the batch `[[1,2],[3],[4]]` with target length 2 the chunk set
is `[[[1,2]], [[3],[4]]]`.  The single-segment chunk `[[1,2]]` triggers
the `continue` bug, which increments `chunk_id` twice for one physical
chunk; when the chunk `[[3],[4]]` (index 1 of the chunk set) is then
processed it carries `chunk_id = 2`, so the RANDOM branch's exclusion
`rid != chunk_id` accepts `rid = 1` and replaces B with the flattening
`[3,4]` of the very chunk the pair was split from: the second emitted
instance has label 2 and `input_ids = [CLS] 3 [SEP] 3 4 [SEP]`, refuting
"the chunk currently being processed is never chosen as its own
replacement".  Draws: float 1/20 (short-sequence branch), raw int 0
(`randint(2,10) = 2`, the target), floats 9/10 and 1/2 (relation draws of
the two emitted instances), raw ints 0, 0 (`a_end` draws), 1 (`rid`). -/
theorem c5_random_replacement_can_be_current_chunk :
    get_all_chunk [[1, 2], [3], [4]] 2 = [[[1, 2]], [[3], [4]]] ∧
    (group_texts [[1, 2], [3], [4]] 1 10
        ⟨[oneTwentieth, nineTenths, oneHalf], [0, 0, 0, 1]⟩).1.next_sentence_label = [0, 2] ∧
    (group_texts [[1, 2], [3], [4]] 1 10
        ⟨[oneTwentieth, nineTenths, oneHalf], [0, 0, 0, 1]⟩).1.input_ids
      = [[101, 1, 2, 102, 1, 2, 102], [101, 3, 102, 3, 4, 102]] := by
  decide

/-- C7 counterexample: in the claimed scenario (segments
`[[1,2],[3],[4,5,6]]`, `max_num_tokens = 10`, `a_end` forced to 1 by the
raw draw 0, relation draw 9/10 giving `SAME_ORDER`) the code emits
`segment_ids = [0,1,1,2,3,4,4,4,5]` — B's origin ids `[1,2,2,2]` renumber
to `[3,4,4,4]`, not to the claimed `[3,3,3]`, and the sequence has 9
entries (2 + 4 content ids plus 3 sentinels), so the claimed
`[0,1,1,2,3,3,3,4]` is wrong. -/
theorem c7_segment_ids_counterexample :
    (group_texts [[1, 2], [3], [4, 5, 6]] 1 10 ⟨[oneHalf, nineTenths], [0]⟩).1.segment_ids
        = [[0, 1, 1, 2, 3, 4, 4, 4, 5]] ∧
    ([0, 1, 1, 2, 3, 4, 4, 4, 5] : List ℤ) ≠ [0, 1, 1, 2, 3, 3, 3, 4] := by
  decide

/-- C7 amended: same scenario; the transform produces `A = [1,2]`,
`B = [3,4,5,6]` with no truncation (visible in
`input_ids = [CLS] 1 2 [SEP] 3 4 5 6 [SEP]`), label `SAME_ORDER`,
`special_tokens_mask = [1,0,0,1,0,0,0,0,1]` as claimed, and
`segment_ids = [0,1,1,2,3,4,4,4,5]`. -/
theorem c7_concrete_scenario_amended :
    (group_texts [[1, 2], [3], [4, 5, 6]] 1 10 ⟨[oneHalf, nineTenths], [0]⟩).1.input_ids
        = [[101, 1, 2, 102, 3, 4, 5, 6, 102]] ∧
    (group_texts [[1, 2], [3], [4, 5, 6]] 1 10 ⟨[oneHalf, nineTenths], [0]⟩).1.special_tokens_mask
        = [[1, 0, 0, 1, 0, 0, 0, 0, 1]] ∧
    (group_texts [[1, 2], [3], [4, 5, 6]] 1 10 ⟨[oneHalf, nineTenths], [0]⟩).1.segment_ids
        = [[0, 1, 1, 2, 3, 4, 4, 4, 5]] ∧
    (group_texts [[1, 2], [3], [4, 5, 6]] 1 10 ⟨[oneHalf, nineTenths], [0]⟩).1.next_sentence_label
        = [0] := by
  decide

/-- C8 counterexample: on the input `[[1,2],[]]` with target 10 the
non-empty segment `[1,2]` is appended to the running chunk (its length 2
stays below the target and it is not at the last index), but the last
index holds an empty segment, which is skipped before the flush check
`i == len - 1`; the loop then ends and the non-empty running buffer is
dropped, so no chunk is flushed at all — refuting "a non-empty running
buffer is still flushed when the remaining input consists only of empty
segments". -/
theorem c8_trailing_empty_segment_drops_buffer :
    get_all_chunk [[1, 2], []] 10 = [] ∧ ([1, 2] : List ℕ) ≠ [] := by
  decide

/-- Fuel `len(A) + len(B) + 1` (in fact any fuel exceeding the combined
length) always suffices for the truncation loop: every iteration that does
not exit removes exactly one token. -/
theorem truncateFuel_isSome (f maxNumTokens : ℕ) :
    ∀ (ta tb : List ℕ) (ai bi : List ℤ) (g : RNG),
      ta.length + tb.length < f →
      (truncateFuel f maxNumTokens ta tb ai bi g).isSome = true := by
  induction f with
  | zero => intro ta tb ai bi g h; omega
  | succ f ih =>
    intro ta tb ai bi g h
    rw [truncateFuel]
    by_cases hle : ta.length + tb.length ≤ maxNumTokens
    · simp [hle]
    · simp only [hle, if_false]
      apply ih
      by_cases hpick : tb.length < ta.length <;>
        by_cases hq : (nextFloat g).1 < oneHalf <;>
          simp [hpick, hq, List.length_tail, List.length_dropLast] <;> omega

/-- Invariant of the truncation loop: whenever it exits (returns `some`),
if both token lists were non-empty and `max_num_tokens ≥ 2` then the
combined length fits the budget and both lists are still non-empty (each
trimming step removes from a list of length at least 2). -/
theorem truncateFuel_invariant (f maxNumTokens : ℕ) :
    ∀ (ta tb : List ℕ) (ai bi : List ℤ) (g : RNG)
      (out : List ℕ × List ℕ × List ℤ × List ℤ × RNG),
      truncateFuel f maxNumTokens ta tb ai bi g = some out →
      2 ≤ maxNumTokens → ta ≠ [] → tb ≠ [] →
      out.1.length + out.2.1.length ≤ maxNumTokens ∧ out.1 ≠ [] ∧ out.2.1 ≠ [] := by
  induction f with
  | zero => intro ta tb ai bi g out hout; simp [truncateFuel] at hout
  | succ f ih =>
    intro ta tb ai bi g out hout hmax hta htb
    rw [truncateFuel] at hout
    by_cases hle : ta.length + tb.length ≤ maxNumTokens
    · rw [if_pos hle] at hout
      cases hout
      exact ⟨hle, hta, htb⟩
    · rw [if_neg hle] at hout
      have h3 : 3 ≤ ta.length + tb.length := by omega
      have hta1 : 1 ≤ ta.length := List.length_pos.mpr hta
      have htb1 : 1 ≤ tb.length := List.length_pos.mpr htb
      by_cases hpick : tb.length < ta.length
      · have hta2 : 2 ≤ ta.length := by omega
        by_cases hq : (nextFloat g).1 < oneHalf
        · simp only [hpick, hq, if_true] at hout
          exact ih _ _ _ _ _ _ hout hmax
            (by rw [← List.length_pos, List.length_tail]; omega) htb
        · simp only [hpick, hq, if_true, if_false] at hout
          exact ih _ _ _ _ _ _ hout hmax
            (by rw [← List.length_pos, List.length_dropLast]; omega) htb
      · have htb2 : 2 ≤ tb.length := by omega
        by_cases hq : (nextFloat g).1 < oneHalf
        · simp only [hpick, hq, if_true, if_false] at hout
          exact ih _ _ _ _ _ _ hout hmax hta
            (by rw [← List.length_pos, List.length_tail]; omega)
        · simp only [hpick, hq, if_false] at hout
          exact ih _ _ _ _ _ _ hout hmax hta
            (by rw [← List.length_pos, List.length_dropLast]; omega)

/-- C10: the truncation loop terminates on every input — fuel equal to
`len(A) + len(B) + 1` (one round per removable token plus the final exit
check) always produces a result, because each non-exiting iteration
removes exactly one element from one of the two token lists. -/
theorem c10_truncation_terminates (maxNumTokens : ℕ) (ta tb : List ℕ)
    (ai bi : List ℤ) (g : RNG) :
    (truncateFuel (ta.length + tb.length + 1) maxNumTokens ta tb ai bi g).isSome
      = true :=
  truncateFuel_isSome _ _ _ _ _ _ _ (by omega)

/-- C2: for non-empty token lists A and B and `max_num_tokens ≥ 2`,
after `truncate_seq_pair` returns, `len(A) + len(B) ≤ max_num_tokens` and
both lists are non-empty — so neither the in-loop assertion
`len(trunc_tokens) >= 1` nor the post-loop assertions
`len(tokens_a) >= 1`, `len(tokens_b) >= 1` can fire. -/
theorem c2_truncate_seq_pair_bounds (maxNumTokens : ℕ) (ta tb : List ℕ)
    (ai bi : List ℤ) (g : RNG)
    (hta : ta ≠ []) (htb : tb ≠ []) (hmax : 2 ≤ maxNumTokens) :
    (truncate_seq_pair maxNumTokens ta tb ai bi g).1.length
        + (truncate_seq_pair maxNumTokens ta tb ai bi g).2.1.length ≤ maxNumTokens ∧
    (truncate_seq_pair maxNumTokens ta tb ai bi g).1 ≠ [] ∧
    (truncate_seq_pair maxNumTokens ta tb ai bi g).2.1 ≠ [] := by
  have hs := truncateFuel_isSome (ta.length + tb.length + 1) maxNumTokens
    ta tb ai bi g (by omega)
  obtain ⟨out, hout⟩ := Option.isSome_iff_exists.mp hs
  have := truncateFuel_invariant (ta.length + tb.length + 1) maxNumTokens
    ta tb ai bi g out hout hmax hta htb
  rw [truncate_seq_pair, hout]
  exact this

/-- Witness for C2 at `A = [5]`, `B = [7,8,9]`, `max_num_tokens = 2`:
two tokens are trimmed from B, both lists stay non-empty. -/
theorem c2_truncate_seq_pair_bounds_witness :
    (truncate_seq_pair 2 [5] [7, 8, 9] [0] [1, 1, 1] ⟨[oneQuarter, oneQuarter], []⟩).1.length
        + (truncate_seq_pair 2 [5] [7, 8, 9] [0] [1, 1, 1]
            ⟨[oneQuarter, oneQuarter], []⟩).2.1.length ≤ 2 ∧
    (truncate_seq_pair 2 [5] [7, 8, 9] [0] [1, 1, 1] ⟨[oneQuarter, oneQuarter], []⟩).1 ≠ [] ∧
    (truncate_seq_pair 2 [5] [7, 8, 9] [0] [1, 1, 1] ⟨[oneQuarter, oneQuarter], []⟩).2.1 ≠ [] :=
  c2_truncate_seq_pair_bounds 2 [5] [7, 8, 9] [0] [1, 1, 1]
    ⟨[oneQuarter, oneQuarter], []⟩ (by decide) (by decide) (by decide)

/-- C3 amended: in every iteration of the truncation loop with
`len(A) + len(B) > max_num_tokens`, the trimmed token list is the longer
of the two with ties broken by selecting B (the source's strict comparison
`len(tokens_a) > len(tokens_b)`), and — provided each origin-id list is
aligned in length with its token list — the element removed (the first
when the draw is below 1/2, otherwise the last) is removed identically
from the selected token list and from its matching origin-id list. -/
theorem c3_truncation_step_amended (f maxNumTokens : ℕ) (ta tb : List ℕ)
    (ai bi : List ℤ) (q : ℚ) (fs : List ℚ) (ks : List ℕ)
    (hai : ai.length = ta.length) (hbi : bi.length = tb.length)
    (h : maxNumTokens < ta.length + tb.length) :
    truncateFuel (f + 1) maxNumTokens ta tb ai bi ⟨q :: fs, ks⟩ =
      if tb.length < ta.length then
        (if q < 1/2 then truncateFuel f maxNumTokens ta.tail tb ai.tail bi ⟨fs, ks⟩
         else truncateFuel f maxNumTokens ta.dropLast tb ai.dropLast bi ⟨fs, ks⟩)
      else
        (if q < 1/2 then truncateFuel f maxNumTokens ta tb.tail ai bi.tail ⟨fs, ks⟩
         else truncateFuel f maxNumTokens ta tb.dropLast ai bi.dropLast ⟨fs, ks⟩) := by
  rw [truncateFuel, if_neg (by omega)]
  simp only [nextFloat, hai, hbi, oneHalf_eq]
  by_cases hpick : tb.length < ta.length <;> by_cases hq : q < 1/2 <;>
    rw [one_div] at hq <;> simp [hpick, hq]

/-- Witness for C3 amended: `A = [5,6]`, `B = [7,8,9]`, budget 3; the
longer list B is trimmed at the front. -/
theorem c3_truncation_step_amended_witness :
    truncateFuel 6 3 [5, 6] [7, 8, 9] [0, 0] [1, 1, 1] ⟨[oneQuarter], []⟩ =
      (if oneQuarter < 1/2 then
          truncateFuel 5 3 [5, 6] [8, 9] [0, 0] [1, 1] ⟨[], []⟩
        else truncateFuel 5 3 [5, 6] [7, 8] [0, 0] [1, 1] ⟨[], []⟩) := by
  have h := c3_truncation_step_amended 5 3 [5, 6] [7, 8, 9] [0, 0] [1, 1, 1]
    oneQuarter [] [] (by decide) (by decide) (by decide)
  rw [h]
  norm_num [oneQuarter_eq]

/-- C3 counterexample: with `A = [5,6]`, `B = [7,8]` and
`max_num_tokens = 3` the single truncation iteration sees a tie
`len(A) = len(B) = 2`; the source's strict comparison
`tokens_a if len(tokens_a) > len(tokens_b) else tokens_b` selects B, not
A as claimed: the front draw 1/4 removes B's first element (and the first
element of B's origin ids), leaving A untouched as `[5,6]`. -/
theorem c3_tie_selects_b_counterexample :
    truncate_seq_pair 3 [5, 6] [7, 8] [10, 11] [20, 21] ⟨[oneQuarter], []⟩
      = ([5, 6], [8], [10, 11], [21], ⟨[], []⟩) := by
  decide

/-- C4: for every drawn relation value `r`: if `r < 1/3` the label is
`SWAPPED = 1` and A/B with their origin-id lists are exchanged; if
`1/3 ≤ r < 2/3` and the chunk set has more than one chunk the label is
`RANDOM = 2`; otherwise the label is `SAME_ORDER = 0` and the pair is kept
as split.  Consequently a single-chunk batch can never receive label 2. -/
theorem c4_relation_labels (totalChunk : List (List (List ℕ))) (chunkId : ℤ)
    (ta tb : List ℕ) (ai bi : List ℤ) (r : ℚ) (fs : List ℚ) (ks : List ℕ) :
    (r < 1/3 →
      relationSample totalChunk chunkId ta tb ai bi ⟨r :: fs, ks⟩ =
        (1, tb, ta, bi, ai, ⟨fs, ks⟩)) ∧
    (1/3 ≤ r → r < 2/3 → 1 < totalChunk.length →
      (relationSample totalChunk chunkId ta tb ai bi ⟨r :: fs, ks⟩).1 = 2) ∧
    (1/3 ≤ r → ¬(r < 2/3 ∧ 1 < totalChunk.length) →
      relationSample totalChunk chunkId ta tb ai bi ⟨r :: fs, ks⟩ =
        (0, ta, tb, ai, bi, ⟨fs, ks⟩)) ∧
    (totalChunk.length = 1 →
      (relationSample totalChunk chunkId ta tb ai bi ⟨r :: fs, ks⟩).1 ≠ 2) := by
  have hunfold : relationSample totalChunk chunkId ta tb ai bi ⟨r :: fs, ks⟩ =
      if r < oneThird then (1, tb, ta, bi, ai, ⟨fs, ks⟩)
      else if r < twoThirds ∧ 1 < totalChunk.length then
        (2, ta, (totalChunk.getD (pickRid chunkId totalChunk.length ⟨fs, ks⟩).1 []).flatten,
          ai, segIdsOf 0 (totalChunk.getD (pickRid chunkId totalChunk.length ⟨fs, ks⟩).1 []),
          (pickRid chunkId totalChunk.length ⟨fs, ks⟩).2)
      else (0, ta, tb, ai, bi, ⟨fs, ks⟩) := rfl
  refine ⟨?_, ?_, ?_, ?_⟩
  · intro h
    rw [hunfold, if_pos (by rwa [oneThird_eq])]
  · intro h1 h2 h3
    rw [hunfold, if_neg (by rw [oneThird_eq]; exact not_lt.mpr h1),
      if_pos ⟨by rwa [twoThirds_eq], h3⟩]
  · intro h1 h2
    rw [hunfold, if_neg (by rw [oneThird_eq]; exact not_lt.mpr h1),
      if_neg (by rw [twoThirds_eq]; exact h2)]
  · intro h
    rw [hunfold]
    by_cases hr : r < oneThird
    · rw [if_pos hr]
      simp
    · rw [if_neg hr, if_neg (by simp [h])]
      simp

/-- Witness for C4 at `r = 9/10` with an empty chunk set: the label is
`SAME_ORDER = 0` and the pair is unchanged. -/
theorem c4_relation_labels_witness :
    relationSample [] 0 [1] [2] [0] [1] ⟨[nineTenths], []⟩
      = (0, [1], [2], [0], [1], ⟨[], []⟩) :=
  (c4_relation_labels [] 0 [1] [2] [0] [1] nineTenths [] []).2.2.1
    (by norm_num [nineTenths_eq]) (by norm_num [nineTenths_eq])

/-- C9: the transform is a pure function of the input batch, the
parameters and the random-generator state — two invocations with the same
input and identical seed/state agree on every output field. -/
theorem c9_determinism (examples : List (List ℕ)) (dupeFactor maxNumTokens : ℕ)
    (g g' : RNG) (h : g = g') :
    (group_texts examples dupeFactor maxNumTokens g).1.input_ids
        = (group_texts examples dupeFactor maxNumTokens g').1.input_ids ∧
    (group_texts examples dupeFactor maxNumTokens g).1.token_type_ids
        = (group_texts examples dupeFactor maxNumTokens g').1.token_type_ids ∧
    (group_texts examples dupeFactor maxNumTokens g).1.attention_mask
        = (group_texts examples dupeFactor maxNumTokens g').1.attention_mask ∧
    (group_texts examples dupeFactor maxNumTokens g).1.special_tokens_mask
        = (group_texts examples dupeFactor maxNumTokens g').1.special_tokens_mask ∧
    (group_texts examples dupeFactor maxNumTokens g).1.next_sentence_label
        = (group_texts examples dupeFactor maxNumTokens g').1.next_sentence_label ∧
    (group_texts examples dupeFactor maxNumTokens g).1.segment_ids
        = (group_texts examples dupeFactor maxNumTokens g').1.segment_ids := by
  subst h
  exact ⟨rfl, rfl, rfl, rfl, rfl, rfl⟩

/-- Witness for C9 on the batch `[[1,2]]` with two equal generator states. -/
theorem c9_determinism_witness :
    (group_texts [[1, 2]] 1 10 ⟨[oneHalf, nineTenths], [0]⟩).1.input_ids
        = (group_texts [[1, 2]] 1 10 ⟨[oneHalf, nineTenths], [0]⟩).1.input_ids ∧
    (group_texts [[1, 2]] 1 10 ⟨[oneHalf, nineTenths], [0]⟩).1.token_type_ids
        = (group_texts [[1, 2]] 1 10 ⟨[oneHalf, nineTenths], [0]⟩).1.token_type_ids ∧
    (group_texts [[1, 2]] 1 10 ⟨[oneHalf, nineTenths], [0]⟩).1.attention_mask
        = (group_texts [[1, 2]] 1 10 ⟨[oneHalf, nineTenths], [0]⟩).1.attention_mask ∧
    (group_texts [[1, 2]] 1 10 ⟨[oneHalf, nineTenths], [0]⟩).1.special_tokens_mask
        = (group_texts [[1, 2]] 1 10 ⟨[oneHalf, nineTenths], [0]⟩).1.special_tokens_mask ∧
    (group_texts [[1, 2]] 1 10 ⟨[oneHalf, nineTenths], [0]⟩).1.next_sentence_label
        = (group_texts [[1, 2]] 1 10 ⟨[oneHalf, nineTenths], [0]⟩).1.next_sentence_label ∧
    (group_texts [[1, 2]] 1 10 ⟨[oneHalf, nineTenths], [0]⟩).1.segment_ids
        = (group_texts [[1, 2]] 1 10 ⟨[oneHalf, nineTenths], [0]⟩).1.segment_ids :=
  c9_determinism [[1, 2]] 1 10 ⟨[oneHalf, nineTenths], [0]⟩ ⟨[oneHalf, nineTenths], [0]⟩ rfl

/-- No chunk is ever flushed empty: everything the chunker appends to the
output list is `cur ++ [seg]` with `seg` non-empty. -/
theorem get_all_chunk_loop_ne_nil (target : ℕ) :
    ∀ (segs cur : List (List ℕ)) (curlen : ℕ) (c : List (List ℕ)),
      c ∈ get_all_chunk_loop target segs cur curlen → c ≠ [] := by
  intro segs
  induction segs with
  | nil => intro cur curlen c hc; simp [get_all_chunk_loop] at hc
  | cons seg rest ih =>
    intro cur curlen c hc
    rw [get_all_chunk_loop] at hc
    by_cases hseg : seg = []
    · rw [if_pos hseg] at hc
      exact ih _ _ _ hc
    · rw [if_neg hseg] at hc
      by_cases hflush : rest = [] ∨ target ≤ curlen + seg.length
      · rw [if_pos hflush, if_neg (by simp)] at hc
        rcases List.mem_append.mp hc with h1 | h2
        · rw [List.mem_singleton.mp h1]
          simp
        · exact ih _ _ _ h2
      · rw [if_neg hflush] at hc
        exact ih _ _ _ hc

/-- Conservation of the chunker: provided the input's last segment is
non-empty, the concatenation of all flushed chunks is exactly the running
buffer followed by the non-empty input segments, in order (the final
segment triggers the `i == len - 1` flush, so nothing is left behind). -/
theorem get_all_chunk_loop_flatten (target : ℕ) :
    ∀ (segs cur : List (List ℕ)) (curlen : ℕ) (s : List ℕ),
      segs.getLast? = some s → s ≠ [] →
      (get_all_chunk_loop target segs cur curlen).flatten
        = cur ++ segs.filter (fun t => !t.isEmpty) := by
  intro segs
  induction segs with
  | nil => intro cur curlen s hs; simp at hs
  | cons seg rest ih =>
    intro cur curlen s hs hne
    cases rest with
    | nil =>
      have hseg : seg = s := by simpa using hs
      subst hseg
      simp [get_all_chunk_loop, hne, List.filter_cons]
    | cons r rs =>
      have hs' : (r :: rs).getLast? = some s := by
        rwa [List.getLast?_cons_cons] at hs
      rw [get_all_chunk_loop]
      by_cases hseg : seg = []
      · rw [if_pos hseg, ih _ _ s hs' hne]
        simp [List.filter_cons, hseg]
      · rw [if_neg hseg]
        by_cases hflush : (r :: rs : List (List ℕ)) = [] ∨ target ≤ curlen + seg.length
        · rw [if_pos hflush, if_neg (by simp), List.flatten_append, ih _ _ s hs' hne]
          simp [List.filter_cons, hseg, List.append_assoc]
        · rw [if_neg hflush, ih _ _ s hs' hne]
          simp [List.filter_cons, hseg, List.append_assoc]

/-- C8 amended: a chunk is flushed when the running length reaches the
target or the current (necessarily non-empty) segment sits at the last
input index, and no chunk is ever flushed empty; consequently, provided
the input's **last segment is non-empty**, every non-empty segment ends up
in some flushed chunk — the flushed chunks concatenate exactly to the
non-empty segments in order.  (When the remaining input consists only of
empty segments, the final flush check is never reached and the non-empty
running buffer is dropped, not flushed — see the counterexample.) -/
theorem c8_chunker_conservation_amended (segs : List (List ℕ)) (target : ℕ)
    (s : List ℕ) (hs : segs.getLast? = some s) (hne : s ≠ []) :
    (get_all_chunk segs target).flatten = segs.filter (fun t => !t.isEmpty) ∧
    ∀ c ∈ get_all_chunk segs target, c ≠ [] :=
  ⟨by simpa using get_all_chunk_loop_flatten target segs [] 0 s hs hne,
   fun c hc => get_all_chunk_loop_ne_nil target segs [] 0 c hc⟩

/-- Witness for C8 amended on `[[1,2],[3]]` with target 2: the two flushed
chunks concatenate to the full segment list and are non-empty. -/
theorem c8_chunker_conservation_amended_witness :
    ((get_all_chunk [[1, 2], [3]] 2).flatten
        = [[1, 2], [3]].filter (fun t => !t.isEmpty) ∧
      ∀ c ∈ get_all_chunk [[1, 2], [3]] 2, c ≠ []) :=
  c8_chunker_conservation_amended [[1, 2], [3]] 2 [3] (by decide) (by decide)

/-- The head of a nondecreasing list is a lower bound for its members. -/
theorem sorted_headI_le (l : List ℤ) (h : List.Sorted (· ≤ ·) l) :
    ∀ x ∈ l, l.headI ≤ x := by
  cases l with
  | nil => intro x hx; simp at hx
  | cons a t =>
    intro x hx
    rcases List.mem_cons.mp hx with rfl | hxt
    · exact le_refl x
    · exact (List.sorted_cons.mp h).1 x hxt

/-- Every member of a nondecreasing list is bounded by its last element. -/
theorem sorted_le_getLastD :
    ∀ (l : List ℤ) (d : ℤ), List.Sorted (· ≤ ·) l → ∀ x ∈ l, x ≤ l.getLastD d := by
  intro l
  induction l with
  | nil => intro d h x hx; simp at hx
  | cons a t ih =>
    intro d h x hx
    rw [List.getLastD_cons]
    rcases List.mem_cons.mp hx with rfl | hxt
    · cases t with
      | nil => exact le_refl x
      | cons b u =>
        have hxb : x ≤ b := (List.sorted_cons.mp h).1 b (by simp)
        have hbl : b ≤ (b :: u).getLastD x :=
          ih x (List.sorted_cons.mp h).2 b (by simp)
        exact le_trans hxb hbl
    · exact ih a (List.sorted_cons.mp h).2 x hxt

/-- The last element (with default) of a non-empty list is a member. -/
theorem getLastD_mem : ∀ (l : List ℤ) (d : ℤ), l ≠ [] → l.getLastD d ∈ l := by
  intro l
  induction l with
  | nil => intro d h; exact absurd rfl h
  | cons a t ih =>
    intro d _
    rw [List.getLastD_cons]
    cases t with
    | nil => simp
    | cons b u => exact List.mem_cons_of_mem a (ih a (by simp))

/-- Shape lemma for the emitted segment-id sequence: a leading `0`, a
nondecreasing block whose members are at least 1, a sentinel one above
that block's last element, a second nondecreasing block whose members sit
at least two above the first block's last element, and a final sentinel
one above the second block's last element, form a nondecreasing list. -/
theorem sorted_sentinel_append (a' b' : List ℤ) (ha' : a' ≠ []) (hb' : b' ≠ [])
    (hA2 : List.Sorted (· ≤ ·) a') (hB2 : List.Sorted (· ≤ ·) b')
    (hA1 : ∀ x ∈ a', 1 ≤ x)
    (hBlow : ∀ y ∈ b', a'.getLastD 0 + 2 ≤ y) :
    List.Sorted (· ≤ ·)
      (0 :: (a' ++ (a'.getLastD 0 + 1) :: (b' ++ [b'.getLastD 0 + 1]))) := by
  have hA3 : ∀ x ∈ a', x ≤ a'.getLastD 0 := sorted_le_getLastD a' 0 hA2
  have hB3 : ∀ y ∈ b', y ≤ b'.getLastD 0 := sorted_le_getLastD b' 0 hB2
  have hla1 : 1 ≤ a'.getLastD 0 := hA1 _ (getLastD_mem a' 0 ha')
  have hlb : a'.getLastD 0 + 2 ≤ b'.getLastD 0 := hBlow _ (getLastD_mem b' 0 hb')
  rw [List.sorted_cons]
  constructor
  · intro z hz
    rcases List.mem_append.mp hz with h1 | h2
    · have := hA1 z h1; omega
    · rcases List.mem_cons.mp h2 with rfl | h3
      · omega
      · rcases List.mem_append.mp h3 with h4 | h5
        · have := hBlow z h4; omega
        · rw [List.mem_singleton] at h5; subst h5; omega
  · show List.Pairwise (· ≤ ·) (a' ++ (a'.getLastD 0 + 1) :: (b' ++ [b'.getLastD 0 + 1]))
    rw [List.pairwise_append]
    refine ⟨hA2, ?_, ?_⟩
    · rw [List.pairwise_cons]
      constructor
      · intro z hz
        rcases List.mem_append.mp hz with hz | hz
        · have := hBlow z hz; omega
        · rw [List.mem_singleton] at hz; omega
      · rw [List.pairwise_append]
        refine ⟨hB2, List.pairwise_singleton _ _, ?_⟩
        intro y hy z hz
        rw [List.mem_singleton] at hz
        have := hB3 y hy
        omega
    · intro x hx y hy
      have hxla := hA3 x hx
      rcases List.mem_cons.mp hy with rfl | hy'
      · omega
      · rcases List.mem_append.mp hy' with hy'' | hy''
        · have := hBlow y hy''; omega
        · rw [List.mem_singleton] at hy''; omega

/-- C6: for non-empty, nondecreasing origin-id lists `a` and `b` (as they
always are at emission time: each is a run of constant blocks with
ascending segment indices, preserved by swapping, substitution and
truncation), the emitted segment-id sequence
`[0] + a' + [a'[-1]+1] + b' + [b'[-1]+1]` is nondecreasing, and each of
the two sentinels strictly exceeds every id of the renumbered half it
closes. -/
theorem c6_segment_ids_monotone (a b : List ℤ) (ha : a ≠ []) (hb : b ≠ [])
    (hsa : List.Sorted (· ≤ ·) a) (hsb : List.Sorted (· ≤ ·) b) :
    List.Sorted (· ≤ ·) (assembleSegmentIds a b) ∧
    (∀ x ∈ renumberA a, x < (renumberA a).getLastD 0 + 1) ∧
    (∀ y ∈ renumberB (renumberA a) b,
      y < (renumberB (renumberA a) b).getLastD 0 + 1) := by
  have ha'ne : renumberA a ≠ [] := by
    rw [renumberA]
    simpa using ha
  have hb'ne : renumberB (renumberA a) b ≠ [] := by
    rw [renumberB]
    simpa using hb
  have hA2 : List.Sorted (· ≤ ·) (renumberA a) :=
    List.Pairwise.map _ (fun x y hxy => by omega) hsa
  have hB2 : List.Sorted (· ≤ ·) (renumberB (renumberA a) b) :=
    List.Pairwise.map _ (fun x y hxy => by omega) hsb
  have hA1 : ∀ x ∈ renumberA a, 1 ≤ x := by
    intro x hx
    rw [renumberA] at hx
    obtain ⟨y, hy, rfl⟩ := List.mem_map.mp hx
    have := sorted_headI_le a hsa y hy
    omega
  have hBlow : ∀ y ∈ renumberB (renumberA a) b, (renumberA a).getLastD 0 + 2 ≤ y := by
    intro y hy
    rw [renumberB] at hy
    obtain ⟨z, hz, rfl⟩ := List.mem_map.mp hy
    have := sorted_headI_le b hsb z hz
    omega
  have hassemble : assembleSegmentIds a b
      = 0 :: (renumberA a ++ ((renumberA a).getLastD 0 + 1) ::
          (renumberB (renumberA a) b ++ [(renumberB (renumberA a) b).getLastD 0 + 1])) := rfl
  refine ⟨?_, ?_, ?_⟩
  · rw [hassemble]
    exact sorted_sentinel_append _ _ ha'ne hb'ne hA2 hB2 hA1 hBlow
  · intro x hx
    have := sorted_le_getLastD (renumberA a) 0 hA2 x hx
    omega
  · intro y hy
    have := sorted_le_getLastD (renumberB (renumberA a) b) 0 hB2 y hy
    omega

/-- Witness for C6 at `a = [0,0]`, `b = [1,2,2]` (the origin ids of the
C7 scenario's split): the assembled sequence is nondecreasing and the
sentinels dominate their halves. -/
theorem c6_segment_ids_monotone_witness :
    List.Sorted (· ≤ ·) (assembleSegmentIds [0, 0] [1, 2, 2]) ∧
    (∀ x ∈ renumberA [0, 0], x < (renumberA [0, 0]).getLastD 0 + 1) ∧
    (∀ y ∈ renumberB (renumberA [0, 0]) [1, 2, 2],
      y < (renumberB (renumberA [0, 0]) [1, 2, 2]).getLastD 0 + 1) :=
  c6_segment_ids_monotone [0, 0] [1, 2, 2] (by decide) (by decide)
    (by decide) (by decide)

end PoNet
